import Mathlib

/-!
# Verification of the voxel-sandbox simulation core

A shallow embedding of the simulation core of the repository
(`src/components/minecraft/utils.ts`, `src/components/minecraft/MinecraftGame.tsx`)
into Lean 4, together with theorems settling the frozen claims about it.

Modelling conventions:
* JavaScript numbers are idealised as rationals (`ℚ`); `Math.round`, `Math.floor`,
  `Math.max`, `Math.min` become exact operations on `ℚ`.
* JavaScript strings (the block keys) are modelled as `List Char`.
* Calls into external collaborators — `Math.random`, `Math.sin`, `Math.cos`, and the
  `THREE.js` geometric queries (ray/mesh intersection, Euclidean vector length) — are
  supplied as explicit oracle parameters, so every definition stays a pure function of
  its inputs.  The post-intersection arithmetic the repository performs on the oracle
  results is transcribed faithfully, including the in-place mutation semantics of
  `THREE.Vector3.add`/`sub`/`multiplyScalar`.
-/

/-- A 3-component vector over `ℚ`, the model of `THREE.Vector3`. -/
structure Vec3 where
  x : ℚ
  y : ℚ
  z : ℚ
  deriving DecidableEq, Repr

/-- Componentwise vector addition (`THREE.Vector3.add`, result value). -/
def vadd (a b : Vec3) : Vec3 := ⟨a.x + b.x, a.y + b.y, a.z + b.z⟩

/-- Componentwise vector subtraction (`THREE.Vector3.sub`, result value). -/
def vsub (a b : Vec3) : Vec3 := ⟨a.x - b.x, a.y - b.y, a.z - b.z⟩

/-- Scalar multiplication (`THREE.Vector3.multiplyScalar`, result value). -/
def smul (k : ℚ) (v : Vec3) : Vec3 := ⟨k * v.x, k * v.y, k * v.z⟩

/-- `JavaScript` `Math.round`: round half toward positive infinity. -/
def jround (q : ℚ) : ℤ := ⌊q + 1 / 2⌋

/-- The Euclidean length of `v`, `‖v‖ || 1` as in `THREE.Vector3.normalize`
(divide by 1 when the length is 0).  `len` is the length oracle standing for the
floating-point `Math.sqrt`-based `THREE.Vector3.length`. -/
def vlenOrOne (len : Vec3 → ℚ) (v : Vec3) : ℚ := if len v = 0 then 1 else len v

/-- `THREE.Vector3.normalize`: `this.divideScalar(this.length() || 1)`,
with the length supplied by the oracle `len`. -/
def vnormalize (len : Vec3 → ℚ) (v : Vec3) : Vec3 := smul (1 / vlenOrOne len v) v

/-- The closed block-type enumeration (`BLOCK_TYPES` in `utils.ts`). -/
inductive BlockType where
  | grass
  | dirt
  | stone
  | wood
  | leaves
  deriving DecidableEq, Repr

/-- `getBlockType(y, terrainHeight)` from `utils.ts` (the same branching is inlined
in `generateWorld` in `MinecraftGame.tsx`):
grass at the surface, dirt in the next three layers (`y >= terrainHeight - 3`),
stone below. -/
def getBlockType (y terrainHeight : ℤ) : BlockType :=
  if y = terrainHeight then BlockType.grass
  else if y ≥ terrainHeight - 3 then BlockType.dirt
  else BlockType.stone

/-! ## Coordinate/key codec

`getBlockKey` renders the integer coordinates with the template literal
`` `${x},${y},${z}` ``; a JavaScript integer renders as its canonical decimal
numeral (leading `-` for negatives).  `parseBlockKey` splits on `','` and applies
`Number` to each part.  Keys are modelled as `List Char`; `Number` applied to a
string that is not a canonical integer numeral (which never arises from
`getBlockKey`) yields `NaN` or a fractional value in JavaScript and is not modelled
precisely here. -/

/-- The decimal digit character for `d` (`d < 10` in every use). -/
def digitChar (d : ℕ) : Char :=
  if d = 0 then '0' else if d = 1 then '1' else if d = 2 then '2'
  else if d = 3 then '3' else if d = 4 then '4' else if d = 5 then '5'
  else if d = 6 then '6' else if d = 7 then '7' else if d = 8 then '8'
  else if d = 9 then '9' else '*'

/-- The numeric value of a decimal digit character. -/
def charDigit (c : Char) : ℕ :=
  if c = '0' then 0 else if c = '1' then 1 else if c = '2' then 2
  else if c = '3' then 3 else if c = '4' then 4 else if c = '5' then 5
  else if c = '6' then 6 else if c = '7' then 7 else if c = '8' then 8
  else if c = '9' then 9 else 0

/-- Canonical decimal numeral of a natural number, as JavaScript renders it
(`(0).toString() = "0"`). -/
def natToDec (n : ℕ) : List Char :=
  if n = 0 then ['0'] else ((Nat.digits 10 n).map digitChar).reverse

/-- Canonical decimal numeral of an integer, as JavaScript renders it in a
template literal. -/
def intToDec (i : ℤ) : List Char :=
  if i < 0 then '-' :: natToDec i.natAbs else natToDec i.toNat

/-- `getBlockKey(x, y, z)` from `utils.ts`: the string `` `${x},${y},${z}` ``. -/
def getBlockKey (x y z : ℤ) : List Char :=
  intToDec x ++ ',' :: (intToDec y ++ ',' :: intToDec z)

/-- `String.prototype.split(',')` on a character list. -/
def splitComma : List Char → List (List Char)
  | [] => [[]]
  | c :: rest =>
    if c = ',' then [] :: splitComma rest
    else
      match splitComma rest with
      | [] => [[c]]
      | s :: ss => (c :: s) :: ss

/-- Numeric value of a (comma-free) list of decimal digit characters,
most significant first — `Number` on a canonical non-negative numeral. -/
def decOfChars (cs : List Char) : ℕ :=
  Nat.ofDigits 10 ((cs.map charDigit).reverse)

/-- `Number` on a canonical integer numeral: a leading `'-'` negates the rest. -/
def parseIntChars (cs : List Char) : ℤ :=
  if cs.head? = some '-' then -(decOfChars cs.tail) else decOfChars cs

/-- `parseBlockKey(key)` from `utils.ts`: split on `','`, destructure the first
three parts (`const [x, y, z] = key.split(',')`), and convert each with `Number`.
Fewer than three parts leaves a destructured component `undefined`
(`Number(undefined) = NaN`), modelled as `none`. -/
def parseBlockKey (key : List Char) : Option (ℤ × ℤ × ℤ) :=
  match splitComma key with
  | x :: y :: z :: _ => some (parseIntChars x, parseIntChars y, parseIntChars z)
  | _ => none

/-! ## Terrain generator

`noise(x, z) = Math.sin(x * 0.1) * Math.cos(z * 0.1) * 3`; the transcendental
library functions `Math.sin`/`Math.cos` are supplied as oracles `msin`/`mcos`. -/

/-- `noise(x, z)` from `utils.ts`, with `Math.sin`/`Math.cos` as oracles. -/
def noise (msin mcos : ℚ → ℚ) (x z : ℚ) : ℚ :=
  msin (x * (1 / 10)) * mcos (z * (1 / 10)) * 3

/-- `getTerrainHeight(x, z)` from `utils.ts`: `Math.floor(noise(x, z)) + 5`.
The same expression is inlined in `generateWorld` and (with `+ 6`) in `spawnCows`. -/
def getTerrainHeight (msin mcos : ℚ → ℚ) (x z : ℚ) : ℤ :=
  ⌊noise msin mcos x z⌋ + 5

/-! ## Targeting (raycast resolver)

`raycastBlock` in `utils.ts` and `getTargetBlock` in `MinecraftGame.tsx` are the
same code: they ask `THREE.Raycaster` for the nearest intersection (an external
collaborator, modelled as an oracle that yields the hit point and the world-space
outward unit normal of the struck face) and then derive the `place`/`remove`
coordinates.  The derivation below transcribes the source exactly, including the
aliasing of the mutating `THREE.Vector3` operations: `placePosition =
point.add(normal.multiplyScalar(0.5))` leaves `normal` scaled by `0.5` and `point`
advanced by it, so the subsequent `removePosition = point.sub(normal)` undoes that
very advance and rounds the original hit point. -/

structure TargetResult where
  place : ℤ × ℤ × ℤ
  remove : ℤ × ℤ × ℤ
  deriving DecidableEq, Repr

/-- The `place`/`remove` derivation of `raycastBlock`/`getTargetBlock`, applied to
the hit point and world-space face normal returned by the intersection oracle. -/
def raycastBlock (point normal : Vec3) : TargetResult :=
  let normal1 := smul (1 / 2) normal
  let placePosition := vadd point normal1
  let place := (jround placePosition.x, jround placePosition.y, jround placePosition.z)
  let removePosition := vsub placePosition normal1
  let remove := (jround removePosition.x, jround removePosition.y, jround removePosition.z)
  { place := place, remove := remove }

/-- The six canonical axis-aligned face normals of a unit cube, as integer
triples. -/
def canonicalNormalsZ : List (ℤ × ℤ × ℤ) :=
  [(1, 0, 0), (-1, 0, 0), (0, 1, 0), (0, -1, 0), (0, 0, 1), (0, 0, -1)]

/-- Dot product, used to say a face-tangential offset has no normal component. -/
def vdot (a b : Vec3) : ℚ := a.x * b.x + a.y * b.y + a.z * b.z

/-! ## World store

The world is `Map<string, THREE.Mesh>`; the mesh is rendering state whose only
core-relevant datum is the material, i.e. the `BlockType`, so the store is
modelled as an association list from key to `BlockType` with the JavaScript `Map`
operations (`get`, `has`, `set`, `delete`).  Keys inserted by the code are unique
(a `set` on a present key overwrites in place). -/

abbrev WorldMap : Type := List (List Char × BlockType)

/-- `Map.prototype.get`. -/
def wGet (w : WorldMap) (k : List Char) : Option BlockType :=
  (List.find? (fun p => p.1 = k) w).map (·.2)

/-- `Map.prototype.has`. -/
def wHas (w : WorldMap) (k : List Char) : Bool :=
  List.any w (fun p => p.1 = k)

/-- `Map.prototype.set`: overwrite in place when present, append otherwise. -/
def wSet (w : WorldMap) (k : List Char) (v : BlockType) : WorldMap :=
  if wHas w k then List.map (fun p => if p.1 = k then (k, v) else p) w
  else w ++ [(k, v)]

/-- `Map.prototype.delete`. -/
def wDelete (w : WorldMap) (k : List Char) : WorldMap :=
  List.filter (fun p => ¬p.1 = k) w

/-! ## Entity behaviour engine (`class Cow`)

The behavioural state of a cow.  The mesh is rendering state; its single
core-relevant datum is the body material set by `updateBodyColor`
(`happyMaterial` after a feed, `normalMaterial` after the fed timer expires),
modelled as the `happy` flag.  The opaque `id` and the mesh geometry are omitted. -/

structure Cow where
  position : Vec3
  direction : Vec3
  speed : ℚ
  wanderTimer : ℚ
  maxWanderTime : ℚ
  isFed : Bool
  followTarget : Option Vec3
  fedTimer : ℚ
  maxFedTime : ℚ
  happy : Bool
  deriving DecidableEq, Repr

/-- The `Cow` constructor: random initial horizontal heading (normalized, zero
`y`), random speed in `[0.5, 1)`, random wander interval in `[3, 7)`, not fed.
`rnd` is the `Math.random` oracle (consumed at indices `0..3` in call order) and
`len` the vector-length oracle used by `normalize`. -/
def Cow.new (rnd : ℕ → ℚ) (len : Vec3 → ℚ) (x y z : ℚ) : Cow :=
  { position := ⟨x, y, z⟩
    direction := vnormalize len ⟨(rnd 0 - 1 / 2) * 2, 0, (rnd 1 - 1 / 2) * 2⟩
    speed := 1 / 2 + rnd 2 * (1 / 2)
    wanderTimer := 0
    maxWanderTime := 3 + rnd 3 * 4
    isFed := false
    followTarget := none
    fedTimer := 0
    maxFedTime := 10
    happy := false }

/-- `Cow.feed(playerPosition)`: enter the fed/following state, record the feeder
position as follow target, reset the fed timer, switch the body to the happy
material. -/
def Cow.feed (c : Cow) (playerPosition : Vec3) : Cow :=
  { c with isFed := true, followTarget := some playerPosition, fedTimer := 0,
           happy := true }

/-- `Cow.isNearWorldBounds(worldBounds)` with buffer 3. -/
def Cow.isNearWorldBounds (bmin bmax : ℚ) (pos : Vec3) : Bool :=
  pos.x ≤ bmin + 3 || pos.x ≥ bmax - 3 || pos.z ≤ bmin + 3 || pos.z ≥ bmax - 3

/-- The clamp `Math.max(min + 2, Math.min(max - 2, v))` applied to each
horizontal coordinate after movement. -/
def clampCoord (bmin bmax v : ℚ) : ℚ := max (bmin + 2) (min (bmax - 2) v)

/-- `Cow.update(delta, worldBounds)`, transcribed step by step:
1. accumulate the wander timer;
2. when fed, accumulate the fed timer and on expiry clear the fed state,
   follow target, timer and happy material;
3. when (still) fed with a follow target, head toward it at speed 1.5, or zero
   the heading within distance 2; otherwise re-randomize the speed and, on
   wander-timer expiry or near the world bounds, reset the timer and pick a new
   random horizontal heading and wander interval;
4. advance the position by `heading * speed * delta` and clamp `x`/`z` into
   `[bmin + 2, bmax - 2]`.
`rnd` is the `Math.random` oracle for this call (indices `0..3` in call order)
and `len` the vector-length oracle (`THREE.Vector3.length`).  The mesh updates
(`mesh.position`, yaw from the heading, the sine bob applied to `mesh.position.y`)
are rendering state and do not touch `position`. -/
def Cow.update (rnd : ℕ → ℚ) (len : Vec3 → ℚ) (delta : ℚ) (bmin bmax : ℚ)
    (c : Cow) : Cow :=
  let c1 := { c with wanderTimer := c.wanderTimer + delta }
  let c2 :=
    if c1.isFed then
      let ft := c1.fedTimer + delta
      if c1.maxFedTime ≤ ft then
        { c1 with isFed := false, followTarget := none, fedTimer := 0, happy := false }
      else { c1 with fedTimer := ft }
    else c1
  let c3 :=
    match c2.isFed, c2.followTarget with
    | true, some target =>
      let directionToTarget := vsub target c2.position
      let distanceToTarget := len directionToTarget
      if 2 < distanceToTarget then
        { c2 with direction := vnormalize len directionToTarget, speed := 3 / 2 }
      else
        { c2 with direction := ⟨0, 0, 0⟩ }
    | _, _ =>
      let c2a := { c2 with speed := 1 / 2 + rnd 0 * (1 / 2) }
      if c2a.maxWanderTime ≤ c2a.wanderTimer ∨
          Cow.isNearWorldBounds bmin bmax c2a.position = true then
        { c2a with wanderTimer := 0, maxWanderTime := 3 + rnd 1 * 4,
                   direction := vnormalize len ⟨(rnd 2 - 1 / 2) * 2, 0, (rnd 3 - 1 / 2) * 2⟩ }
      else c2a
  let moved := vadd c3.position (smul (c3.speed * delta) c3.direction)
  { c3 with position := ⟨clampCoord bmin bmax moved.x, moved.y, clampCoord bmin bmax moved.z⟩ }

/-! ## Entity spawn (`spawnCows`)

For each cow, `spawnCows` runs
`do { x = r*30-15; z = r*30-15; y = floor(sin(x*0.1)*cos(z*0.1)*3) + 6; attempts++ }
while (attempts < 50)` and constructs the cow at the final `(x, y, z)`.  The
`do`-`while` condition inspects only the attempt counter, never the sampled
position.  `rnd` is the `Math.random` oracle, consumed at indices
`2k` (for `x`) and `2k + 1` (for `z`) on the iteration entered with
`attempts = k`. -/

/-- The candidate position sampled by the loop body entered with `attempts = k`
(spawn half-extent `size = 15`): `x, z ∈ [-15, 15)` random, `y` = surface height
plus one at `(x, z)`. -/
def spawnSample (msin mcos : ℚ → ℚ) (rnd : ℕ → ℚ) (k : ℕ) : ℚ × ℚ × ℤ :=
  let x := rnd (2 * k) * 15 * 2 - 15
  let z := rnd (2 * k + 1) * 15 * 2 - 15
  (x, z, ⌊msin (x * (1 / 10)) * mcos (z * (1 / 10)) * 3⌋ + 6)

/-- The spawn-position `do`-`while` loop, entered with `attempts = k`:
run the body, then repeat while the incremented counter is below 50. -/
def spawnFrom (msin mcos : ℚ → ℚ) (rnd : ℕ → ℚ) (k : ℕ) : ℚ × ℚ × ℤ :=
  let s := spawnSample msin mcos rnd k
  if k + 1 < 50 then spawnFrom msin mcos rnd (k + 1) else s
termination_by 50 - k
decreasing_by omega

/-- The position at which `spawnCows` constructs one cow: the loop run from
`attempts = 0`. -/
def spawnCowPosition (msin mcos : ℚ → ℚ) (rnd : ℕ → ℚ) : ℚ × ℚ × ℤ :=
  spawnFrom msin mcos rnd 0

/-! ## Click handler (`handleClick` in `MinecraftGame.tsx`)

The ray/geometry intersections are external (`THREE.Raycaster`): `cowHit` is the
index of the cow whose mesh the ray first hits (`none` when it hits no cow), and
`target` is the result of `getTargetBlock` (`none` when the ray hits no block).
Button 0 is the primary (remove) action, button 2 the secondary (feed/place)
action.  The transcription follows the source: a right click on a not-yet-fed
cow feeds it and returns before any block edit; a right click on an already-fed
cow falls through to the block logic. -/

def handleClick (button : ℕ) (cameraPosition : Vec3) (cowHit : Option ℕ)
    (target : Option TargetResult) (selectedBlock : BlockType)
    (cows : List Cow) (world : WorldMap) : List Cow × WorldMap :=
  let fedCows : Option (List Cow) :=
    match cowHit with
    | some i =>
      if button = 2 then
        match cows[i]? with
        | some clickedCow =>
          if clickedCow.isFed = false then
            some (cows.set i (Cow.feed clickedCow cameraPosition))
          else none
        | none => none
      else none
    | none => none
  match fedCows with
  | some cows2 => (cows2, world)
  | none =>
    match target with
    | none => (cows, world)
    | some t =>
      if button = 0 then
        let key := getBlockKey t.remove.1 t.remove.2.1 t.remove.2.2
        match wGet world key with
        | some _ => (cows, wDelete world key)
        | none => (cows, world)
      else if button = 2 then
        let key := getBlockKey t.place.1 t.place.2.1 t.place.2.2
        if wHas world key then (cows, world)
        else (cows, wSet world key selectedBlock)
      else (cows, world)

/-! ## Theorems -/

/-- C7: for `0 ≤ y ≤ columnHeight`, the block classifier returns grass exactly at
the surface, dirt exactly in the band `columnHeight - 3 ≤ y < columnHeight`, and
stone exactly below it; in particular for `columnHeight = 5`: `y = 5` is grass,
`y ∈ {2, 3, 4}` is dirt, `y ∈ {0, 1}` is stone. -/
theorem getBlockType_classification (y h : ℤ) (hy0 : 0 ≤ y) (hyh : y ≤ h) :
    ((getBlockType y h = BlockType.grass ↔ y = h) ∧
     (getBlockType y h = BlockType.dirt ↔ h - 3 ≤ y ∧ y < h) ∧
     (getBlockType y h = BlockType.stone ↔ y < h - 3)) ∧
    (getBlockType 5 5 = BlockType.grass ∧
     getBlockType 4 5 = BlockType.dirt ∧ getBlockType 3 5 = BlockType.dirt ∧
     getBlockType 2 5 = BlockType.dirt ∧
     getBlockType 1 5 = BlockType.stone ∧ getBlockType 0 5 = BlockType.stone) := by
  refine ⟨?_, by decide⟩
  unfold getBlockType
  split_ifs with h1 h2 <;> refine ⟨?_, ?_, ?_⟩ <;> simp <;> omega

/-- Witness for C7 at `y = 3`, `columnHeight = 5`. -/
theorem getBlockType_classification_witness :
    (0 ≤ (3 : ℤ) ∧ (3 : ℤ) ≤ 5) ∧
    (getBlockType 3 5 = BlockType.dirt ↔ 5 - 3 ≤ (3 : ℤ) ∧ (3 : ℤ) < 5) := by
  exact ⟨by decide, (getBlockType_classification 3 5 (by decide) (by decide)).1.2.1⟩

/-- C9: `getBlockType` is total and returns dirt (never grass, never stone) for
every `y` strictly above the terrain height, because the dirt guard
`y >= terrainHeight - 3` also captures every `y > terrainHeight`. -/
theorem getBlockType_above_surface (y h : ℤ) (hy : h < y) :
    getBlockType y h = BlockType.dirt := by
  unfold getBlockType
  split_ifs with h1 h2
  · exact absurd h1 (by omega)
  · rfl
  · exact absurd (by omega : y ≥ h - 3) h2

/-- Witness for C9 at `y = 6` above `terrainHeight = 5`. -/
theorem getBlockType_above_surface_witness :
    (5 : ℤ) < 6 ∧ getBlockType 6 5 = BlockType.dirt :=
  ⟨by decide, getBlockType_above_surface 6 5 (by decide)⟩

/-- C4: whenever the clamp interval is non-degenerate, the horizontal position
after `Cow.update` lies within `[worldMin + 2, worldMax - 2]`, for every elapsed
delta, every prior state, and every random/length oracle: the hard clamp is the
last step of the movement update. -/
theorem cow_update_bounds (rnd : ℕ → ℚ) (len : Vec3 → ℚ) (delta bmin bmax : ℚ)
    (c : Cow) (hb : bmin + 2 ≤ bmax - 2) :
    (bmin + 2 ≤ (Cow.update rnd len delta bmin bmax c).position.x ∧
      (Cow.update rnd len delta bmin bmax c).position.x ≤ bmax - 2) ∧
    (bmin + 2 ≤ (Cow.update rnd len delta bmin bmax c).position.z ∧
      (Cow.update rnd len delta bmin bmax c).position.z ≤ bmax - 2) := by
  have hcl : ∀ v : ℚ, bmin + 2 ≤ clampCoord bmin bmax v ∧ clampCoord bmin bmax v ≤ bmax - 2 := by
    intro v
    unfold clampCoord
    exact ⟨le_max_left _ _, max_le hb (min_le_left _ _)⟩
  unfold Cow.update
  exact ⟨hcl _, hcl _⟩

/-- Witness for C4 with the game's world bounds `[-20, 20]` and concrete oracles. -/
theorem cow_update_bounds_witness :
    ((-20 : ℚ) + 2 ≤ (-20 : ℚ) + 2 → True) ∧
    ((-20 : ℚ) + 2 ≤ (Cow.update (fun _ => 0) (fun _ => 0) 1 (-20) 20
        (Cow.new (fun _ => 0) (fun _ => 0) 0 6 0)).position.x ∧
      (Cow.update (fun _ => 0) (fun _ => 0) 1 (-20) 20
        (Cow.new (fun _ => 0) (fun _ => 0) 0 6 0)).position.x ≤ (20 : ℚ) - 2) :=
  ⟨fun _ => trivial,
    (cow_update_bounds (fun _ => 0) (fun _ => 0) 1 (-20) 20
      (Cow.new (fun _ => 0) (fun _ => 0) 0 6 0) (by norm_num)).1⟩

/-- C10: a not-fed (wandering) cow with a horizontal heading keeps its vertical
position across `Cow.update`, and its heading stays horizontal: the wander
re-randomization produces a zero `y` heading component (as does the constructor),
and the bounds clamp touches only `x` and `z`. -/
theorem cow_update_preserves_y (rnd rnd2 : ℕ → ℚ) (len len2 : Vec3 → ℚ)
    (delta bmin bmax x y z : ℚ) (c : Cow)
    (hfed : c.isFed = false) (hdir : c.direction.y = 0) :
    ((Cow.update rnd len delta bmin bmax c).position.y = c.position.y ∧
      (Cow.update rnd len delta bmin bmax c).direction.y = 0) ∧
    (Cow.new rnd2 len2 x y z).direction.y = 0 := by
  constructor
  · unfold Cow.update
    simp only [hfed, Bool.false_eq_true, if_false]
    split
    · simp [vadd, smul, vnormalize]
    · simp [vadd, smul, hdir]
  · simp [Cow.new, vnormalize, smul]

/-- Witness for C10 at a concrete wandering cow with concrete oracles. -/
theorem cow_update_preserves_y_witness :
    ((Cow.new (fun _ => 0) (fun _ => 0) 1 6 1).isFed = false ∧
      (Cow.new (fun _ => 0) (fun _ => 0) 1 6 1).direction.y = 0) ∧
    (Cow.update (fun _ => 0) (fun _ => 0) 1 (-20) 20
      (Cow.new (fun _ => 0) (fun _ => 0) 1 6 1)).position.y =
      (Cow.new (fun _ => 0) (fun _ => 0) 1 6 1).position.y :=
  ⟨⟨rfl, by simp [Cow.new, vnormalize, smul]⟩,
    ((cow_update_preserves_y (fun _ => 0) (fun _ => 0) (fun _ => 0) (fun _ => 0)
      1 (-20) 20 0 0 0 (Cow.new (fun _ => 0) (fun _ => 0) 1 6 1) rfl
      (by simp [Cow.new, vnormalize, smul])).1).1⟩

/-- C5: `Cow.feed` on a wandering cow enters the fed/following state — fed flag
set, follow target recorded, fed timer reset, happy body material on — and
`Cow.update` on a fed cow whose accumulated fed time reaches `maxFedTime`
(10 as constructed) reverts it to wandering: fed flag off, follow target
cleared, fed timer reset to zero, happy material off. -/
theorem cow_feed_then_timeout (rnd : ℕ → ℚ) (len : Vec3 → ℚ) (delta bmin bmax : ℚ)
    (c cfed : Cow) (p : Vec3)
    (hW : c.isFed = false)
    (hfed : cfed.isFed = true) (hacc : cfed.maxFedTime ≤ cfed.fedTimer + delta) :
    ((Cow.feed c p).isFed = true ∧ (Cow.feed c p).happy = true ∧
      (Cow.feed c p).followTarget = some p ∧ (Cow.feed c p).fedTimer = 0) ∧
    ((Cow.update rnd len delta bmin bmax cfed).isFed = false ∧
      (Cow.update rnd len delta bmin bmax cfed).followTarget = none ∧
      (Cow.update rnd len delta bmin bmax cfed).fedTimer = 0 ∧
      (Cow.update rnd len delta bmin bmax cfed).happy = false) := by
  refine ⟨⟨rfl, rfl, rfl, rfl⟩, ?_⟩
  unfold Cow.update
  simp only [hfed, if_true, if_pos hacc]
  split_ifs <;> simp

/-- Witness for C5: a freshly constructed (wandering) cow is fed and then updated
with a 10-second delta. -/
theorem cow_feed_then_timeout_witness :
    ((Cow.new (fun _ => 0) (fun _ => 0) 0 6 0).isFed = false ∧
      (Cow.feed (Cow.new (fun _ => 0) (fun _ => 0) 0 6 0) ⟨1, 6, 1⟩).isFed = true ∧
      (Cow.feed (Cow.new (fun _ => 0) (fun _ => 0) 0 6 0) ⟨1, 6, 1⟩).happy = true) ∧
    ((Cow.update (fun _ => 0) (fun _ => 0) 10 (-20) 20
        (Cow.feed (Cow.new (fun _ => 0) (fun _ => 0) 0 6 0) ⟨1, 6, 1⟩)).isFed = false ∧
      (Cow.update (fun _ => 0) (fun _ => 0) 10 (-20) 20
        (Cow.feed (Cow.new (fun _ => 0) (fun _ => 0) 0 6 0) ⟨1, 6, 1⟩)).followTarget = none ∧
      (Cow.update (fun _ => 0) (fun _ => 0) 10 (-20) 20
        (Cow.feed (Cow.new (fun _ => 0) (fun _ => 0) 0 6 0) ⟨1, 6, 1⟩)).happy = false) := by
  have h := cow_feed_then_timeout (fun _ => 0) (fun _ => 0) 10 (-20) 20
    (Cow.new (fun _ => 0) (fun _ => 0) 0 6 0)
    (Cow.feed (Cow.new (fun _ => 0) (fun _ => 0) 0 6 0) ⟨1, 6, 1⟩) ⟨1, 6, 1⟩
    rfl rfl (by norm_num [Cow.feed, Cow.new])
  exact ⟨⟨rfl, h.1.1, h.1.2.1⟩, h.2.1, h.2.2.1, h.2.2.2.2⟩

/-- C8: with a block target resolved, a primary (remove) click on a coordinate
absent from the world store leaves the store unchanged, and a secondary (place)
click on a coordinate already present leaves the store unchanged — both actions
are no-ops, not errors, when their precondition fails. -/
theorem handleClick_noop_edits (camPos : Vec3) (t : TargetResult)
    (selected : BlockType) (cows : List Cow) (w : WorldMap)
    (hAbsent : wGet w (getBlockKey t.remove.1 t.remove.2.1 t.remove.2.2) = none)
    (hPresent : wHas w (getBlockKey t.place.1 t.place.2.1 t.place.2.2) = true) :
    handleClick 0 camPos none (some t) selected cows w = (cows, w) ∧
    handleClick 2 camPos none (some t) selected cows w = (cows, w) := by
  constructor
  · unfold handleClick
    simp [hAbsent]
  · unfold handleClick
    simp [hPresent]

/-- Evaluation lemma: the numeral of `0`. -/
theorem natToDec_zero : natToDec 0 = ['0'] := rfl

/-- Evaluation lemma: the numeral of `1` (`Nat.digits` is defined by well-founded
recursion, so this does not hold by kernel reduction). -/
theorem natToDec_one : natToDec 1 = ['1'] := by
  unfold natToDec
  rw [if_neg (by norm_num), Nat.digits_def' (by norm_num : 1 < 10) (by norm_num : 0 < 1)]
  norm_num
  decide

/-- Evaluation lemma: the key of `(0, 1, 0)`. -/
theorem getBlockKey_zero_one_zero : getBlockKey 0 1 0 = ['0', ',', '1', ',', '0'] := by
  simp [getBlockKey, intToDec, natToDec_zero, natToDec_one]

/-- Witness for C8: a world holding exactly the block at the origin, with a
target placing at the origin (occupied) and removing at the absent key
`(0, 1, 0)` — evaluated concretely. -/
theorem handleClick_noop_edits_witness :
    (wGet [(getBlockKey 0 0 0, BlockType.grass)]
        (getBlockKey ({ place := (0, 0, 0), remove := (0, 1, 0) } : TargetResult).remove.1
          ({ place := (0, 0, 0), remove := (0, 1, 0) } : TargetResult).remove.2.1
          ({ place := (0, 0, 0), remove := (0, 1, 0) } : TargetResult).remove.2.2) = none) ∧
    handleClick 0 ⟨0, 0, 0⟩ none (some { place := (0, 0, 0), remove := (0, 1, 0) })
        BlockType.grass [] [(getBlockKey 0 0 0, BlockType.grass)] =
      ([], [(getBlockKey 0 0 0, BlockType.grass)]) ∧
    handleClick 2 ⟨0, 0, 0⟩ none (some { place := (0, 0, 0), remove := (0, 1, 0) })
        BlockType.grass [] [(getBlockKey 0 0 0, BlockType.grass)] =
      ([], [(getBlockKey 0 0 0, BlockType.grass)]) := by
  have hkey : getBlockKey 0 1 0 = ['0', ',', '1', ',', '0'] := getBlockKey_zero_one_zero
  have habs : wGet [(getBlockKey 0 0 0, BlockType.grass)] (getBlockKey 0 1 0) = none := by
    rw [hkey]; decide
  have h := handleClick_noop_edits ⟨0, 0, 0⟩
    { place := (0, 0, 0), remove := (0, 1, 0) } BlockType.grass []
    [(getBlockKey 0 0 0, BlockType.grass)] habs (by decide)
  exact ⟨habs, h.1, h.2⟩

/-- C2 counterexample: a secondary (right) click whose ray first hits an
already-fed (Following) cow does place a block — the feed check does not return
early in that case, so the claim's "no block is placed by that click" fails on a
concrete state: one fed cow hit by the ray, an empty world, and a resolved block
target; after the click the world holds a block. -/
theorem handleClick_fed_cow_click_places_block :
    (handleClick 2 ⟨0, 0, 0⟩ (some 0)
        (some { place := (0, 0, 0), remove := (0, 0, 0) }) BlockType.grass
        [{ position := ⟨0, 6, 0⟩, direction := ⟨0, 0, 0⟩, speed := 1, wanderTimer := 0,
           maxWanderTime := 3, isFed := true, followTarget := some ⟨0, 0, 0⟩,
           fedTimer := 0, maxFedTime := 10, happy := true }] []).2 =
      [(getBlockKey 0 0 0, BlockType.grass)] ∧
    ([(getBlockKey 0 0 0, BlockType.grass)] : WorldMap) ≠ ([] : WorldMap) := by
  exact ⟨by decide, by decide⟩

/-- C2 (amended): the entity-feed check takes priority on a secondary click whose
ray first hits a cow only when that cow is not already fed: then the cow is fed
and the click performs no block edit.  When the hit cow is already fed
(Following), the feed is a no-op for the entity and the click falls through to
the ordinary block logic, exactly as if no cow had been hit — so a block may be
placed by that click. -/
theorem handleClick_feed_priority (camPos : Vec3) (i : ℕ) (target : Option TargetResult)
    (selected : BlockType) (cows : List Cow) (w : WorldMap) (cow : Cow)
    (hi : cows[i]? = some cow) :
    (cow.isFed = false →
      handleClick 2 camPos (some i) target selected cows w =
        (cows.set i (Cow.feed cow camPos), w)) ∧
    (cow.isFed = true →
      handleClick 2 camPos (some i) target selected cows w =
        handleClick 2 camPos none target selected cows w) := by
  constructor
  · intro h
    unfold handleClick
    simp [hi, h]
  · intro h
    unfold handleClick
    simp [hi, h]

/-- Witness for C2 (amended) at a concrete not-yet-fed cow hit by the ray. -/
theorem handleClick_feed_priority_witness :
    (Cow.new (fun _ => 0) (fun _ => 0) 0 6 0).isFed = false ∧
    handleClick 2 ⟨0, 0, 0⟩ (some 0) none BlockType.grass
        [Cow.new (fun _ => 0) (fun _ => 0) 0 6 0] [] =
      ([Cow.new (fun _ => 0) (fun _ => 0) 0 6 0].set 0
        (Cow.feed (Cow.new (fun _ => 0) (fun _ => 0) 0 6 0) ⟨0, 0, 0⟩), []) :=
  ⟨rfl,
    (handleClick_feed_priority ⟨0, 0, 0⟩ 0 none BlockType.grass
      [Cow.new (fun _ => 0) (fun _ => 0) 0 6 0] []
      (Cow.new (fun _ => 0) (fun _ => 0) 0 6 0) rfl).1 rfl⟩

/-- `spawnCows` constructs each cow as `new Cow(x, y, z)` at the loop's final
sample (`rnd2`/`len` are the constructor's own oracles). -/
def spawnCow (msin mcos : ℚ → ℚ) (rnd rnd2 : ℕ → ℚ) (len : Vec3 → ℚ) : Cow :=
  Cow.new rnd2 len (spawnCowPosition msin mcos rnd).1
    ((spawnCowPosition msin mcos rnd).2.2 : ℚ) (spawnCowPosition msin mcos rnd).2.1

/-- The spawn loop entered with any attempt count up to 49 returns the sample of
attempt 49: the `do`-`while` condition inspects only the counter. -/
theorem spawnFrom_eq_last (msin mcos : ℚ → ℚ) (rnd : ℕ → ℚ) :
    ∀ j k, k + j = 49 → spawnFrom msin mcos rnd k = spawnSample msin mcos rnd 49 := by
  intro j
  induction j with
  | zero =>
    intro k hk
    have h49 : k = 49 := by omega
    subst h49
    rw [spawnFrom, if_neg (by omega)]
  | succ j ih =>
    intro k hk
    rw [spawnFrom, if_pos (by omega)]
    exact ih (k + 1) (by omega)

/-- C3 counterexample: the spawn loop performs no validation of candidate
positions.  With `Math.random` returning `0` on the first iteration and `1 / 2`
afterwards, the first sampled candidate `(-15, -15)` is already on-ground
(its `y` is the terrain surface height plus one — as is every candidate's, by
construction), yet the spawn position is the 50th sample `(0, 0)`, not the
first: no validated-and-accepted search happens. -/
theorem spawnCowPosition_skips_valid_first_sample :
    spawnCowPosition (fun _ => 0) (fun _ => 0) (fun n => if n < 2 then 0 else 1 / 2) ≠
      spawnSample (fun _ => 0) (fun _ => 0) (fun n => if n < 2 then 0 else 1 / 2) 0 ∧
    (spawnSample (fun _ => 0) (fun _ => 0) (fun n => if n < 2 then 0 else 1 / 2) 0).2.2 =
      getTerrainHeight (fun _ => 0) (fun _ => 0)
        (spawnSample (fun _ => 0) (fun _ => 0) (fun n => if n < 2 then 0 else 1 / 2) 0).1
        (spawnSample (fun _ => 0) (fun _ => 0) (fun n => if n < 2 then 0 else 1 / 2) 0).2.1 + 1 := by
  constructor
  · rw [spawnCowPosition, spawnFrom_eq_last (fun _ => 0) (fun _ => 0) _ 49 0 (by omega)]
    simp [spawnSample]
  · simp [spawnSample, getTerrainHeight, noise]

/-- C3 (amended): the spawn-position loop validates nothing — its `do`-`while`
condition is only the attempt counter, so it always runs its full 50-attempt
budget and every spawned cow uses the 50th (last) sampled position; and every
sampled candidate — in particular the one used — has `y` equal to the terrain
surface height plus one at its sampled `(x, z)`, and the constructed cow sits at
that position. -/
theorem spawnCowPosition_spec (msin mcos : ℚ → ℚ) (rnd rnd2 : ℕ → ℚ) (len : Vec3 → ℚ) :
    spawnCowPosition msin mcos rnd = spawnSample msin mcos rnd 49 ∧
    (∀ k, (spawnSample msin mcos rnd k).2.2 =
      getTerrainHeight msin mcos (spawnSample msin mcos rnd k).1
        (spawnSample msin mcos rnd k).2.1 + 1) ∧
    (spawnCow msin mcos rnd rnd2 len).position.y =
      ((spawnCowPosition msin mcos rnd).2.2 : ℚ) := by
  refine ⟨spawnFrom_eq_last msin mcos rnd 49 0 (by omega), ?_, rfl⟩
  intro k
  simp [spawnSample, getTerrainHeight, noise]
  ring

/-- C1 counterexample: a ray hit at the centre `(0, 1/2, 0)` of the top face
(outward normal `(0, 1, 0)`) of the unit cube at `c = (0, 0, 0)`.  The resolver
returns `remove = (0, 1, 0) = c + n`, not `c`: because `add`, `sub` and
`multiplyScalar` mutate their operands, the remove coordinate is the rounding of
the original hit point, whose normal-axis component `c + 1/2` rounds up to
`c + 1` on a positive-normal face. -/
theorem raycastBlock_top_face_remove_mismatch :
    raycastBlock ⟨0, 1 / 2, 0⟩ ⟨0, 1, 0⟩ =
      { place := (0, 1, 0), remove := (0, 1, 0) } ∧
    ((0, 1, 0) : ℤ × ℤ × ℤ) ≠ (0, 0, 0) := by
  constructor
  · simp only [raycastBlock, vadd, smul, vsub, jround, TargetResult.mk.injEq,
      Prod.mk.injEq]
    norm_num
  · decide

set_option maxHeartbeats 1000000 in
/-- C1 (amended): for a ray hit anywhere strictly inside a face of the unit cube
at integer coordinate `c`, with `n` any of the 6 canonical face normals (hit
point `c + n/2 + t` for a face-tangential offset `t` with components below `1/2`
in absolute value), the resolver returns `place = round(point + n·0.5) = c + n`;
its remove coordinate, which by the in-place vector mutation is `round(point)`
rather than `round(point − n)`, equals `c + n` for the three positive-axis
normals and `c` for the three negative-axis normals. -/
theorem raycastBlock_face_adjacency (cx cy cz nx ny nz : ℤ) (t : Vec3)
    (hn : (nx, ny, nz) ∈ canonicalNormalsZ)
    (ht : vdot t ⟨(nx : ℚ), (ny : ℚ), (nz : ℚ)⟩ = 0)
    (htx : |t.x| < 1 / 2) (hty : |t.y| < 1 / 2) (htz : |t.z| < 1 / 2) :
    raycastBlock (vadd ⟨(cx : ℚ), (cy : ℚ), (cz : ℚ)⟩
        (vadd (smul (1 / 2) ⟨(nx : ℚ), (ny : ℚ), (nz : ℚ)⟩) t))
        ⟨(nx : ℚ), (ny : ℚ), (nz : ℚ)⟩ =
      { place := (cx + nx, cy + ny, cz + nz),
        remove := if 0 < nx + ny + nz then (cx + nx, cy + ny, cz + nz)
                  else (cx, cy, cz) } := by
  obtain ⟨tx, ty, tz⟩ := t
  obtain ⟨hx1, hx2⟩ := abs_lt.mp htx
  obtain ⟨hy1, hy2⟩ := abs_lt.mp hty
  obtain ⟨hz1, hz2⟩ := abs_lt.mp htz
  simp only [canonicalNormalsZ, List.mem_cons, List.not_mem_nil, or_false,
    Prod.mk.injEq] at hn
  rcases hn with ⟨e1, e2, e3⟩ | ⟨e1, e2, e3⟩ | ⟨e1, e2, e3⟩ | ⟨e1, e2, e3⟩ |
    ⟨e1, e2, e3⟩ | ⟨e1, e2, e3⟩ <;> subst e1 <;> subst e2 <;> subst e3
  · have h0 : tx = 0 := by simpa [vdot] using ht
    subst h0
    rw [if_pos (by norm_num : (0 : ℤ) < 1 + 0 + 0)]
    simp only [raycastBlock, vadd, smul, vsub, jround, TargetResult.mk.injEq,
      Prod.mk.injEq]
    refine ⟨⟨?_, ?_, ?_⟩, ?_, ?_, ?_⟩ <;>
      (rw [Int.floor_eq_iff] ; constructor <;> push_cast <;> linarith)
  · have h0 : tx = 0 := by simpa [vdot] using ht
    subst h0
    rw [if_neg (by norm_num : ¬(0 : ℤ) < -1 + 0 + 0)]
    simp only [raycastBlock, vadd, smul, vsub, jround, TargetResult.mk.injEq,
      Prod.mk.injEq]
    refine ⟨⟨?_, ?_, ?_⟩, ?_, ?_, ?_⟩ <;>
      (rw [Int.floor_eq_iff] ; constructor <;> push_cast <;> linarith)
  · have h0 : ty = 0 := by simpa [vdot] using ht
    subst h0
    rw [if_pos (by norm_num : (0 : ℤ) < 0 + 1 + 0)]
    simp only [raycastBlock, vadd, smul, vsub, jround, TargetResult.mk.injEq,
      Prod.mk.injEq]
    refine ⟨⟨?_, ?_, ?_⟩, ?_, ?_, ?_⟩ <;>
      (rw [Int.floor_eq_iff] ; constructor <;> push_cast <;> linarith)
  · have h0 : ty = 0 := by simpa [vdot] using ht
    subst h0
    rw [if_neg (by norm_num : ¬(0 : ℤ) < 0 + -1 + 0)]
    simp only [raycastBlock, vadd, smul, vsub, jround, TargetResult.mk.injEq,
      Prod.mk.injEq]
    refine ⟨⟨?_, ?_, ?_⟩, ?_, ?_, ?_⟩ <;>
      (rw [Int.floor_eq_iff] ; constructor <;> push_cast <;> linarith)
  · have h0 : tz = 0 := by simpa [vdot] using ht
    subst h0
    rw [if_pos (by norm_num : (0 : ℤ) < 0 + 0 + 1)]
    simp only [raycastBlock, vadd, smul, vsub, jround, TargetResult.mk.injEq,
      Prod.mk.injEq]
    refine ⟨⟨?_, ?_, ?_⟩, ?_, ?_, ?_⟩ <;>
      (rw [Int.floor_eq_iff] ; constructor <;> push_cast <;> linarith)
  · have h0 : tz = 0 := by simpa [vdot] using ht
    subst h0
    rw [if_neg (by norm_num : ¬(0 : ℤ) < 0 + 0 + -1)]
    simp only [raycastBlock, vadd, smul, vsub, jround, TargetResult.mk.injEq,
      Prod.mk.injEq]
    refine ⟨⟨?_, ?_, ?_⟩, ?_, ?_, ?_⟩ <;>
      (rw [Int.floor_eq_iff] ; constructor <;> push_cast <;> linarith)

/-- Witness for C1 (amended): the top face of the cube at the origin, hit at the
face centre. -/
theorem raycastBlock_face_adjacency_witness :
    (((0 : ℤ), (1 : ℤ), (0 : ℤ)) ∈ canonicalNormalsZ ∧
      vdot ⟨0, 0, 0⟩ ⟨((0 : ℤ) : ℚ), ((1 : ℤ) : ℚ), ((0 : ℤ) : ℚ)⟩ = 0) ∧
    raycastBlock (vadd ⟨((0 : ℤ) : ℚ), ((0 : ℤ) : ℚ), ((0 : ℤ) : ℚ)⟩
        (vadd (smul (1 / 2) ⟨((0 : ℤ) : ℚ), ((1 : ℤ) : ℚ), ((0 : ℤ) : ℚ)⟩) ⟨0, 0, 0⟩))
        ⟨((0 : ℤ) : ℚ), ((1 : ℤ) : ℚ), ((0 : ℤ) : ℚ)⟩ =
      { place := ((0 : ℤ) + 0, (0 : ℤ) + 1, (0 : ℤ) + 0),
        remove := if (0 : ℤ) < 0 + 1 + 0 then ((0 : ℤ) + 0, (0 : ℤ) + 1, (0 : ℤ) + 0)
                  else (0, 0, 0) } := by
  refine ⟨⟨by decide, by norm_num [vdot]⟩, ?_⟩
  exact raycastBlock_face_adjacency 0 0 0 0 1 0 ⟨0, 0, 0⟩ (by decide)
    (by norm_num [vdot]) (by norm_num) (by norm_num) (by norm_num)

/-- Each digit character decodes back to its digit. -/
theorem charDigit_digitChar {d : ℕ} (hd : d < 10) : charDigit (digitChar d) = d := by
  interval_cases d <;> decide

/-- Digit characters are never the comma separator. -/
theorem digitChar_ne_comma (d : ℕ) : digitChar d ≠ ',' := by
  unfold digitChar
  split_ifs <;> decide

/-- Digit characters are never the minus sign. -/
theorem digitChar_ne_dash (d : ℕ) : digitChar d ≠ '-' := by
  unfold digitChar
  split_ifs <;> decide

/-- Natural-number numerals contain no comma. -/
theorem comma_not_mem_natToDec (n : ℕ) : ',' ∉ natToDec n := by
  unfold natToDec
  split_ifs with h
  · decide
  · intro hmem
    rw [List.mem_reverse] at hmem
    obtain ⟨d, _, hd⟩ := List.mem_map.mp hmem
    exact digitChar_ne_comma d hd

/-- Integer numerals contain no comma. -/
theorem comma_not_mem_intToDec (i : ℤ) : ',' ∉ intToDec i := by
  unfold intToDec
  split_ifs with h
  · intro hmem
    rcases List.mem_cons.mp hmem with h1 | h1
    · exact absurd h1 (by decide)
    · exact comma_not_mem_natToDec _ h1
  · exact comma_not_mem_natToDec _

/-- Natural-number numerals are non-empty. -/
theorem natToDec_ne_nil (n : ℕ) : natToDec n ≠ [] := by
  unfold natToDec
  split_ifs with h
  · simp
  · simp [Nat.digits_ne_nil_iff_ne_zero, h]

/-- Natural-number numerals never start with the minus sign. -/
theorem natToDec_head_ne_dash (n : ℕ) : (natToDec n).head? ≠ some '-' := by
  intro hh
  have hne := natToDec_ne_nil n
  obtain ⟨c, cs, hc⟩ := List.exists_cons_of_ne_nil hne
  rw [hc, List.head?_cons, Option.some.injEq] at hh
  subst hh
  have hmem : '-' ∈ natToDec n := by rw [hc]; exact List.mem_cons_self _ _
  unfold natToDec at hmem
  split_ifs at hmem with h
  · exact absurd hmem (by decide)
  · rw [List.mem_reverse] at hmem
    obtain ⟨d, _, hd⟩ := List.mem_map.mp hmem
    exact digitChar_ne_dash d hd

/-- Decoding a natural-number numeral recovers the number. -/
theorem decOfChars_natToDec (n : ℕ) : decOfChars (natToDec n) = n := by
  unfold natToDec decOfChars
  split_ifs with h
  · subst h; decide
  · rw [List.map_reverse, List.reverse_reverse, List.map_map]
    have hmap : (Nat.digits 10 n).map (charDigit ∘ digitChar) = Nat.digits 10 n :=
      ((List.map_congr_left fun d hd =>
          charDigit_digitChar (Nat.digits_lt_base (by norm_num) hd)).trans
        (List.map_id _))
    rw [hmap, Nat.ofDigits_digits]

/-- Decoding an integer numeral recovers the integer. -/
theorem parseIntChars_intToDec (i : ℤ) : parseIntChars (intToDec i) = i := by
  unfold intToDec
  split_ifs with h
  · unfold parseIntChars
    rw [List.head?_cons, if_pos rfl, List.tail_cons, decOfChars_natToDec]
    omega
  · unfold parseIntChars
    rw [if_neg (natToDec_head_ne_dash _), decOfChars_natToDec]
    omega

/-- Splitting a comma-free string yields it whole. -/
theorem splitComma_of_not_mem (cs : List Char) (h : ',' ∉ cs) : splitComma cs = [cs] := by
  induction cs with
  | nil => rfl
  | cons c rest ih =>
    rw [List.mem_cons, not_or] at h
    rw [splitComma, if_neg (fun hc => h.1 hc.symm), ih h.2]

/-- Splitting peels a comma-free prefix before the first comma. -/
theorem splitComma_append (as t : List Char) (h : ',' ∉ as) :
    splitComma (as ++ ',' :: t) = as :: splitComma t := by
  induction as with
  | nil =>
    rw [List.nil_append, splitComma, if_pos rfl]
  | cons c rest ih =>
    rw [List.mem_cons, not_or] at h
    rw [List.cons_append, splitComma, if_neg (fun hc => h.1 hc.symm), ih h.2]

/-- C6: the coordinate key codec round-trips — `getBlockKey` is total and
injective over integer triples, and `parseBlockKey` applied to
`getBlockKey x y z` returns exactly `(x, y, z)` for every integer triple. -/
theorem blockKey_roundtrip_injective :
    (∀ x y z : ℤ, parseBlockKey (getBlockKey x y z) = some (x, y, z)) ∧
    Function.Injective (fun p : ℤ × ℤ × ℤ => getBlockKey p.1 p.2.1 p.2.2) := by
  have hrt : ∀ x y z : ℤ, parseBlockKey (getBlockKey x y z) = some (x, y, z) := by
    intro x y z
    unfold parseBlockKey getBlockKey
    rw [splitComma_append _ _ (comma_not_mem_intToDec x),
      splitComma_append _ _ (comma_not_mem_intToDec y),
      splitComma_of_not_mem _ (comma_not_mem_intToDec z)]
    show some (parseIntChars (intToDec x), parseIntChars (intToDec y),
      parseIntChars (intToDec z)) = some (x, y, z)
    rw [parseIntChars_intToDec, parseIntChars_intToDec, parseIntChars_intToDec]
  refine ⟨hrt, ?_⟩
  rintro ⟨a1, a2, a3⟩ ⟨b1, b2, b3⟩ hab
  simp only at hab
  have h1 := hrt a1 a2 a3
  rw [hab, hrt b1 b2 b3, Option.some.injEq] at h1
  simpa using h1.symm
